import Mathlib

/-
  Verification development for the offset-tracking core of a log agent.

  Shallow embedding of:
    - pkg/auditor/auditor.go : registry of committed offsets (RegistryEntry,
      updateRegistry, cleanupRegistry, recoverRegistry, flushRegistry,
      marshalRegistry, unmarshalRegistry, GetLastCommitedOffset, run)
    - pkg/message : message origins (source path, offset)
    - pkg/tailer/tailer.go : Stop and forwardMessages

  Modelling conventions:
    - time.Time instants are modelled as Int (nanoseconds since the Unix
      epoch); time.Now() becomes an explicit parameter `now`;
      a.Before(b) is the strict order a < b.
    - int64 offsets are Int.
    - a Go map[string]*RegistryEntry is an association list
      List (String  × RegistryEntry); Go maps have unique keys, so lemmas that
      need it take a Nodup hypothesis on the key list.
    - the file system is a map from path to file content; a file content is
      either bytes that fail to parse as a JsonRegistry document (corrupt)
      or a parsed document.  JSON serialization of the document itself is
      lossless for these fields (int64 offsets are exact; RFC3339
      nanosecond timestamps round-trip), so the persisted form is the
      document value.
-/

/-- RegistryEntry from auditor.go: Path, Timestamp (time.Time), Offset (int64). -/
structure RegistryEntry where
  Path : String
  Timestamp : Int
  Offset : Int
deriving DecidableEq

/-- The in-memory registry map[string]*RegistryEntry as an association list. -/
abbrev Registry := List (String × RegistryEntry)

/-- Go map lookup registry[path]. -/
def findEntry : Registry → String → Option RegistryEntry
  | [], _ => none
  | kv :: rest, path => if kv.1 = path then some kv.2 else findEntry rest path

/-- updateRegistry from auditor.go: if path is absent, insert a fresh entry
stamped now; if present, mutate the entry (set Timestamp to now and Offset to
offset) only when the stored offset differs from the one passed. -/
def updateRegistry (reg : Registry) (path : String) (offset : Int) (now : Int) : Registry :=
  match findEntry reg path with
  | none => (path, { Path := path, Timestamp := now, Offset := offset }) :: reg
  | some entry =>
      if entry.Offset ≠ offset then
        reg.map (fun kv =>
          if kv.1 = path then (kv.1, { kv.2 with Timestamp := now, Offset := offset }) else kv)
      else
        reg

/-- cleanupRegistry from auditor.go: expireBefore := now - TTL; delete every
entry whose Timestamp is strictly before expireBefore. -/
def cleanupRegistry (reg : Registry) (now ttl : Int) : Registry :=
  reg.filter (fun kv => ! decide (kv.2.Timestamp < now - ttl))

/-- readOnlyRegistryCopy from auditor.go: value copy of the pointer map. -/
def readOnlyRegistryCopy (reg : Registry) : Registry :=
  reg.map (fun kv => (kv.1, kv.2))

/-- JsonRegistry from auditor.go: the document written on disk. -/
structure JsonRegistry where
  Version : Int
  Registry : Registry
deriving DecidableEq

/-- marshalRegistry from auditor.go: wraps the snapshot with Version 0. -/
def marshalRegistry (registry : Registry) : JsonRegistry :=
  { Version := 0, Registry := registry }

/-- Content of a file on disk: bytes that do not parse as a JsonRegistry
document, or a parsed document. -/
inductive FileData where
  | corrupt : FileData
  | doc : JsonRegistry → FileData
deriving DecidableEq

/-- unmarshalRegistry from auditor.go: json.Unmarshal into a JsonRegistry
(error on corrupt bytes), then copy every entry of r.Registry into a fresh
map.  The Version field is never inspected. -/
def unmarshalRegistry : FileData → Option Registry
  | FileData.corrupt => none
  | FileData.doc d => some (d.Registry.map (fun kv => (kv.1, kv.2)))

/-- The file system: path to file content, none when reading fails. -/
abbrev FileSystem := String → Option FileData

/-- flushRegistry from auditor.go: marshal a read-only copy and write it at
the given path (ioutil.WriteFile overwrites the file wholesale). -/
def flushRegistry (reg : Registry) (path : String) (fs : FileSystem) : FileSystem :=
  fun p =>
    if p = path then some (FileData.doc (marshalRegistry (readOnlyRegistryCopy reg))) else fs p

/-- recoverRegistry from auditor.go: on read error return an empty registry;
on unmarshal error return an empty registry; otherwise the parsed registry. -/
def recoverRegistry (fs : FileSystem) (path : String) : Registry :=
  match fs path with
  | none => []
  | some fd =>
      match unmarshalRegistry fd with
      | none => []
      | some r => r

/-- os.SEEK_SET. -/
def SEEK_SET : Int := 0

/-- os.SEEK_CUR. -/
def SEEK_CUR : Int := 1

/-- os.SEEK_END. -/
def SEEK_END : Int := 2

/-- GetLastCommitedOffset from auditor.go: look the source path up in a
read-only copy; absent means (0, SEEK_END), present means
(entry.Offset, SEEK_CUR).  The identifier is used verbatim. -/
def GetLastCommitedOffset (reg : Registry) (sourcePath : String) : Int × Int :=
  match findEntry (readOnlyRegistryCopy reg) sourcePath with
  | none => (0, SEEK_END)
  | some entry => (entry.Offset, SEEK_CUR)

/-- MessageOrigin from pkg/message: LogSource.Path and Offset. -/
structure MessageOrigin where
  sourcePath : String
  Offset : Int
deriving DecidableEq

/-- One iteration of the run loop of auditor.go: a message whose origin
offset is strictly positive updates the registry at its source path; any
other message is ignored. -/
def runStep (reg : Registry) (m : MessageOrigin) (now : Int) : Registry :=
  if m.Offset > 0 then updateRegistry reg m.sourcePath m.Offset now else reg

/-- Applying a sequence of updateRegistry calls on one path; each list item
is an (offset, now) pair. -/
def applyUpdates (reg : Registry) (path : String) : List (Int × Int) → Registry
  | [] => reg
  | (o, t) :: rest => applyUpdates (updateRegistry reg path o t) path rest

/-- A message on the decoder output channel, as consumed by forwardMessages
of tailer.go: either the stop sentinel or a framed record with content and
an origin offset. -/
inductive DecoderMessage where
  | stopMessage : DecoderMessage
  | dataMessage : List Nat → Int → DecoderMessage
deriving DecidableEq

/-- A FileMessage pushed on the output channel by forwardMessages, already
wrapped with the origin of the source. -/
structure FileMessage where
  content : List Nat
  sourcePath : String
  offset : Int
deriving DecidableEq

/-- The Tailer fields touched by Stop and read by forwardMessages. -/
structure TailerState where
  shouldStop : Bool
  shouldTrackOffset : Bool
deriving DecidableEq

/-- NewTailer from tailer.go: shouldStop false, shouldTrackOffset true. -/
def NewTailer : TailerState :=
  { shouldStop := false, shouldTrackOffset := true }

/-- Stop from tailer.go: set shouldStop and record the requested
shouldTrackOffset. -/
def TailerState.Stop (t : TailerState) (shouldTrackOffset : Bool) : TailerState :=
  { t with shouldStop := true, shouldTrackOffset := shouldTrackOffset }

/-- forwardMessages from tailer.go: consume decoder output until the stop
sentinel; wrap every other record as a FileMessage carrying the origin of the
source, with the offset of the record unless shouldTrackOffset is false, in
which case offset 0 is attached. -/
def forwardMessages (shouldTrackOffset : Bool) (sourcePath : String) :
    List DecoderMessage → List FileMessage
  | [] => []
  | DecoderMessage.stopMessage :: _ => []
  | DecoderMessage.dataMessage c o :: rest =>
      { content := c, sourcePath := sourcePath,
        offset := if shouldTrackOffset then o else 0 } ::
        forwardMessages shouldTrackOffset sourcePath rest

/-- Second component of an instant measured in nanoseconds since the epoch,
as time.Time.Second() for a nonnegative instant. -/
def timeSecond (t : Int) : Int :=
  (t / 1000000000) % 60

/-- The instant 2006-01-12T01:01:01.000000001Z in nanoseconds since the
Unix epoch. -/
def t20060112 : Int := 1137027661000000001

/- Helper lemmas about the embedded operations. -/

/-- The read-only copy of a registry has the same entries. -/
lemma readOnlyRegistryCopy_eq (reg : Registry) : readOnlyRegistryCopy reg = reg := by
  simp [readOnlyRegistryCopy]

/-- Lookup in a registry after the value rewrite updateRegistry performs at
one key. -/
lemma findEntry_map_key (reg : Registry) (path k : String) (o now : Int) :
    findEntry
        (reg.map (fun kv =>
          if kv.1 = path then (kv.1, { kv.2 with Timestamp := now, Offset := o }) else kv)) k =
      if k = path then
        (findEntry reg k).map (fun e => { e with Timestamp := now, Offset := o })
      else findEntry reg k := by
  induction reg with
  | nil => simp [findEntry]
  | cons hd tl ih =>
      by_cases h1 : hd.1 = path
      · by_cases h2 : hd.1 = k
        · simp [findEntry, h1, h2, h1.symm.trans h2]
        · have hkp : ¬ k = path := fun hh => h2 (h1.trans hh.symm)
          have hpk : ¬ path = k := fun hh => h2 (h1.trans hh)
          simp [findEntry, h1, h2, hkp, hpk, ih]
      · by_cases h2 : hd.1 = k
        · have hkp : ¬ k = path := fun hh => h1 (h2.trans hh)
          simp [findEntry, h1, h2, hkp]
        · simp [findEntry, h1, h2, ih]

/-- After updateRegistry, the entry at the updated path stores the offset
just applied. -/
lemma findEntry_updateRegistry_self (reg : Registry) (path : String) (o now : Int) :
    (findEntry (updateRegistry reg path o now) path).map (fun e => e.Offset) = some o := by
  unfold updateRegistry
  cases h : findEntry reg path with
  | none => simp [findEntry]
  | some entry =>
      by_cases ho : entry.Offset = o
      · simp [ho, h]
      · simp [ho, findEntry_map_key, h]

/-- updateRegistry at one path does not change lookups at other keys. -/
lemma findEntry_updateRegistry_ne (reg : Registry) (path k : String) (o now : Int)
    (hk : k ≠ path) :
    findEntry (updateRegistry reg path o now) k = findEntry reg k := by
  unfold updateRegistry
  cases h : findEntry reg path with
  | none => simp [findEntry, Ne.symm hk]
  | some entry =>
      by_cases ho : entry.Offset = o
      · simp [ho]
      · simp [ho, findEntry_map_key, hk]

/-- updateRegistry on an existing entry rewrites the entry only when the
offset differs, in which case Timestamp becomes now and Offset the new
offset. -/
lemma findEntry_updateRegistry_existing (reg : Registry) (path : String) (o now : Int)
    (e : RegistryEntry) (h : findEntry reg path = some e) :
    findEntry (updateRegistry reg path o now) path =
      some (if e.Offset = o then e else { e with Timestamp := now, Offset := o }) := by
  unfold updateRegistry
  rw [h]
  by_cases ho : e.Offset = o
  · simp [ho, h]
  · simp [ho, findEntry_map_key, h]

/-- A key outside the key list of a registry has no entry. -/
lemma findEntry_eq_none_of_not_mem (reg : Registry) (k : String)
    (h : k ∉ reg.map Prod.fst) :
    findEntry reg k = none := by
  induction reg with
  | nil => rfl
  | cons hd tl ih =>
      simp only [List.map_cons, List.mem_cons] at h
      push_neg at h
      have h1 : ¬ hd.1 = k := fun hh => h.1 hh.symm
      simp [findEntry, h1, ih h.2]

/-- Pointwise description of cleanupRegistry on a registry with unique keys:
the entry at a key survives exactly when its Timestamp is not strictly older
than now - ttl. -/
lemma findEntry_cleanupRegistry (reg : Registry) (now ttl : Int) (k : String)
    (hnd : (reg.map Prod.fst).Nodup) :
    findEntry (cleanupRegistry reg now ttl) k =
      (findEntry reg k).bind
        (fun e => if e.Timestamp < now - ttl then none else some e) := by
  induction reg with
  | nil => simp [cleanupRegistry, findEntry]
  | cons hd tl ih =>
      simp only [List.map_cons, List.nodup_cons] at hnd
      obtain ⟨hout, hnd2⟩ := hnd
      by_cases hexp : hd.2.Timestamp < now - ttl
      · have hstep : cleanupRegistry (hd :: tl) now ttl = cleanupRegistry tl now ttl := by
          simp [cleanupRegistry, hexp]
        rw [hstep, ih hnd2]
        by_cases h1 : hd.1 = k
        · rw [findEntry_eq_none_of_not_mem tl k (h1 ▸ hout)]
          simp [findEntry, h1, hexp]
        · simp [findEntry, h1]
      · have hstep : cleanupRegistry (hd :: tl) now ttl = hd :: cleanupRegistry tl now ttl := by
          simp [cleanupRegistry, hexp]
        rw [hstep]
        by_cases h1 : hd.1 = k
        · simp [findEntry, h1, hexp]
        · simp [findEntry, h1, ih hnd2]

/-- The stored offset after a sequence of updateRegistry calls on one path
is the offset of the last call. -/
lemma applyUpdates_last_offset (path : String) (us : List (Int × Int)) (o t : Int)
    (reg : Registry) :
    (findEntry (applyUpdates reg path (us ++ [(o, t)])) path).map (fun e => e.Offset) =
      some o := by
  induction us generalizing reg with
  | nil => simpa [applyUpdates] using findEntry_updateRegistry_self reg path o t
  | cons u rest ih =>
      obtain ⟨uo, ut⟩ := u
      simpa [applyUpdates] using ih (updateRegistry reg path uo ut)

/-- C1: for every registry, flushing it to a path with flushRegistry and
then recovering from that same path with recoverRegistry yields a registry
with the same keys, and for every key the recovered offset equals the
flushed offset. -/
theorem flushRegistry_recoverRegistry_C1 (reg : Registry) (fs : FileSystem) (path k : String) :
    (recoverRegistry (flushRegistry reg path fs) path).map Prod.fst = reg.map Prod.fst ∧
    (findEntry (recoverRegistry (flushRegistry reg path fs) path) k).map (fun e => e.Offset) =
      (findEntry reg k).map (fun e => e.Offset) := by
  have h : recoverRegistry (flushRegistry reg path fs) path = reg := by
    simp [recoverRegistry, flushRegistry, unmarshalRegistry, marshalRegistry,
      readOnlyRegistryCopy]
  rw [h]
  exact ⟨rfl, rfl⟩

/-- C2: GetLastCommitedOffset returns the stored offset with SEEK_CUR when
an entry exists for the identifier, and 0 with SEEK_END when none does. -/
theorem GetLastCommitedOffset_C2 (reg : Registry) (p : String) :
    (∀ e, findEntry reg p = some e → GetLastCommitedOffset reg p = (e.Offset, SEEK_CUR)) ∧
    (findEntry reg p = none → GetLastCommitedOffset reg p = (0, SEEK_END)) := by
  unfold GetLastCommitedOffset
  rw [readOnlyRegistryCopy_eq]
  constructor
  · intro e he; rw [he]
  · intro he; rw [he]

/-- Witness for C2 at a one-entry registry: a known path yields
(42, SEEK_CUR) and an unknown path yields (0, SEEK_END). -/
theorem GetLastCommitedOffset_C2_witness :
    GetLastCommitedOffset [("testpath", RegistryEntry.mk "testpath" 5 42)] "testpath" =
        (42, SEEK_CUR) ∧
    GetLastCommitedOffset [("testpath", RegistryEntry.mk "testpath" 5 42)] "anotherpath" =
        (0, SEEK_END) := by
  constructor
  · exact (GetLastCommitedOffset_C2 [("testpath", RegistryEntry.mk "testpath" 5 42)]
      "testpath").1 (RegistryEntry.mk "testpath" 5 42) (by decide)
  · exact (GetLastCommitedOffset_C2 [("testpath", RegistryEntry.mk "testpath" 5 42)]
      "anotherpath").2 (by decide)

/-- C3: after a sequence of updateRegistry calls on one path the stored
offset is the last offset applied; and a call against an existing entry
refreshes the aging Timestamp exactly when the offset passed differs from
the stored one (a repeated offset leaves the entry, Timestamp included,
unchanged). -/
theorem updateRegistry_C3 (path : String) (reg : Registry) (us : List (Int × Int))
    (o t now : Int) (e : RegistryEntry) :
    ((findEntry (applyUpdates reg path (us ++ [(o, t)])) path).map (fun en => en.Offset) =
      some o) ∧
    (findEntry reg path = some e →
      findEntry (updateRegistry reg path o now) path =
        some (if e.Offset = o then e else { e with Timestamp := now, Offset := o })) :=
  ⟨applyUpdates_last_offset path us o t reg,
   findEntry_updateRegistry_existing reg path o now e⟩

/-- Witness for C3: after updates 3, 7, 10 the stored offset is 10; and a
repeated offset 10 against an entry already at offset 10 leaves the entry
(Timestamp 5 included) unchanged. -/
theorem updateRegistry_C3_witness :
    ((findEntry (applyUpdates [("p.log", RegistryEntry.mk "p.log" 5 10)] "p.log"
        ([(3, 1), (7, 2)] ++ [(10, 99)])) "p.log").map (fun en => en.Offset) = some 10) ∧
    findEntry (updateRegistry [("p.log", RegistryEntry.mk "p.log" 5 10)] "p.log" 10 77)
        "p.log" = some (RegistryEntry.mk "p.log" 5 10) := by
  have h := updateRegistry_C3 "p.log" [("p.log", RegistryEntry.mk "p.log" 5 10)]
    [(3, 1), (7, 2)] 10 99 77 (RegistryEntry.mk "p.log" 5 10)
  refine ⟨h.1, ?_⟩
  have h2 := h.2 (by decide)
  simpa using h2

/-- C4: cleanupRegistry deletes exactly the entries whose Timestamp is
strictly older than now - TTL and keeps every other entry unchanged; in
particular, of one expired and one fresh entry only the fresh one remains. -/
theorem cleanupRegistry_C4 (reg : Registry) (now ttl : Int) (k : String)
    (hnd : (reg.map Prod.fst).Nodup) :
    (findEntry (cleanupRegistry reg now ttl) k =
      (findEntry reg k).bind (fun e => if e.Timestamp < now - ttl then none else some e)) ∧
    (∀ k1 k2 e1 e2, k1 ≠ k2 → e1.Timestamp < now - ttl → ¬ e2.Timestamp < now - ttl →
      cleanupRegistry [(k1, e1), (k2, e2)] now ttl = [(k2, e2)]) := by
  constructor
  · exact findEntry_cleanupRegistry reg now ttl k hnd
  · intro k1 k2 e1 e2 hne h1 h2
    simp [cleanupRegistry, h1, h2]

/-- Witness for C4: with now = 200 and TTL = 50, the entry stamped 0 is
deleted and the entry stamped 180 is the only survivor. -/
theorem cleanupRegistry_C4_witness :
    findEntry (cleanupRegistry [("old", RegistryEntry.mk "old" 0 1),
        ("new", RegistryEntry.mk "new" 180 2)] 200 50) "old" = none ∧
    cleanupRegistry [("old", RegistryEntry.mk "old" 0 1),
        ("new", RegistryEntry.mk "new" 180 2)] 200 50 =
      [("new", RegistryEntry.mk "new" 180 2)] := by
  have h := cleanupRegistry_C4 [("old", RegistryEntry.mk "old" 0 1),
    ("new", RegistryEntry.mk "new" 180 2)] 200 50 "old" (by decide)
  constructor
  · rw [h.1]; decide
  · exact h.2 "old" "new" (RegistryEntry.mk "old" 0 1) (RegistryEntry.mk "new" 180 2)
      (by decide) (by decide) (by decide)

/-- C5: the document marshalRegistry builds, and hence every flushRegistry
write, carries schema version 0 in its Version field, not version 1 as the
spec and the test suite require. -/
theorem marshalRegistry_C5 (reg : Registry) : (marshalRegistry reg).Version = 0 :=
  rfl

/-- C6 counterexample: a persisted document whose Version is 2 (neither 0
nor 1) is not treated as corrupt; recovery returns its entries, not an
empty registry. -/
theorem recoverRegistry_C6_counterexample :
    recoverRegistry
        (fun p => if p = "registry.json" then
          some (FileData.doc
            { Version := 2,
              Registry := [("a.log", RegistryEntry.mk "a.log" 0 5)] }) else none)
        "registry.json" = [("a.log", RegistryEntry.mk "a.log" 0 5)] := by
  decide

/-- C6 amended: recovery never inspects the Version field; a read error or
unparseable bytes yield an empty registry, and any parsed document yields
all its entries whatever its Version; the agent never crashes. -/
theorem recoverRegistry_C6_amended (fs : FileSystem) (path : String) (d : JsonRegistry) :
    (fs path = none → recoverRegistry fs path = []) ∧
    (fs path = some FileData.corrupt → recoverRegistry fs path = []) ∧
    (fs path = some (FileData.doc d) →
      recoverRegistry fs path = d.Registry.map (fun kv => (kv.1, kv.2))) := by
  refine ⟨?_, ?_, ?_⟩ <;> intro h <;> simp [recoverRegistry, h, unmarshalRegistry]

/-- Witness for the amended C6: a document with Version 7 recovers to its
own entry list. -/
theorem recoverRegistry_C6_amended_witness :
    recoverRegistry
        (fun _ => some (FileData.doc
          { Version := 7,
            Registry := [("b.log", RegistryEntry.mk "b.log" 3 9)] })) "x" =
      [("b.log", RegistryEntry.mk "b.log" 3 9)] := by
  have h := (recoverRegistry_C6_amended
    (fun _ => some (FileData.doc
      { Version := 7,
        Registry := [("b.log", RegistryEntry.mk "b.log" 3 9)] })) "x"
    { Version := 7, Registry := [("b.log", RegistryEntry.mk "b.log" 3 9)] }).2.2 rfl
  simpa using h

/-- C7: on the v0 test input, the code parses the legacy timestamp string
2006-01-12T01:01:01.000000001Z into the single time-typed Timestamp field
of the entry (second component 1); the entry has no separate last-updated
field and the legacy string is not kept around as a string. -/
theorem unmarshalRegistry_C7 :
    (unmarshalRegistry (FileData.doc
        { Version := 0,
          Registry := [("path1.log", RegistryEntry.mk "path1.log" t20060112 1)] })).map
        (fun r => (findEntry r "path1.log").map
          (fun e => (timeSecond e.Timestamp, e.Offset))) =
      some (some (1, 1)) := by
  decide

/-- C8: the identifier passed to GetLastCommitedOffset is used verbatim:
with an entry stored under key testpath at offset 42, looking the legacy
form file:testpath up misses (returning 0 with SEEK_END) while the bare
key hits (returning 42 with SEEK_CUR). -/
theorem GetLastCommitedOffset_C8 :
    GetLastCommitedOffset [("testpath", RegistryEntry.mk "testpath" 0 42)]
        "file:testpath" = (0, SEEK_END) ∧
    GetLastCommitedOffset [("testpath", RegistryEntry.mk "testpath" 0 42)]
        "testpath" = (42, SEEK_CUR) := by
  decide

/-- C9: after Stop with shouldTrackOffset false, every record forwardMessages
pushes carries offset 0; with tracking enabled every forwarded record
carries verbatim the offset of the decoder record it wraps. -/
theorem forwardMessages_C9 (t : TailerState) (src : String) (msgs : List DecoderMessage)
    (fm : FileMessage) :
    (fm ∈ forwardMessages ((TailerState.Stop t false).shouldTrackOffset) src msgs →
      fm.offset = 0) ∧
    (fm ∈ forwardMessages true src msgs →
      DecoderMessage.dataMessage fm.content fm.offset ∈ msgs) := by
  constructor
  · show fm ∈ forwardMessages false src msgs → fm.offset = 0
    induction msgs with
    | nil => intro h; simp [forwardMessages] at h
    | cons m rest ih =>
        cases m with
        | stopMessage => intro h; simp [forwardMessages] at h
        | dataMessage c o =>
            intro h
            simp only [forwardMessages, List.mem_cons] at h
            cases h with
            | inl h1 => subst h1; rfl
            | inr h2 => exact ih h2
  · induction msgs with
    | nil => intro h; simp [forwardMessages] at h
    | cons m rest ih =>
        cases m with
        | stopMessage => intro h; simp [forwardMessages] at h
        | dataMessage c o =>
            intro h
            simp only [forwardMessages, List.mem_cons] at h
            cases h with
            | inl h1 => subst h1; simp
            | inr h2 => simp [List.mem_cons, ih h2]

/-- Witness for C9: a tailer stopped with shouldTrackOffset false forwards
a record whose decoder offset was 7 with offset 0; with tracking enabled
the wrapped offset 7 comes verbatim from a decoder record. -/
theorem forwardMessages_C9_witness :
    FileMessage.offset { content := [65], sourcePath := "s", offset := 0 } = 0 ∧
    DecoderMessage.dataMessage [66] 7 ∈
      [DecoderMessage.dataMessage [66] 7, DecoderMessage.stopMessage] := by
  constructor
  · exact (forwardMessages_C9 NewTailer "s"
      [DecoderMessage.dataMessage [65] 7, DecoderMessage.stopMessage]
      { content := [65], sourcePath := "s", offset := 0 }).1 (by decide)
  · exact (forwardMessages_C9 NewTailer "s"
      [DecoderMessage.dataMessage [66] 7, DecoderMessage.stopMessage]
      { content := [66], sourcePath := "s", offset := 7 }).2 (by decide)

/-- C10: a message whose origin offset is zero or negative leaves the
registry unchanged; a strictly positive offset updates only the entry of
the source path of the message, which then stores that offset. -/
theorem runStep_C10 (reg : Registry) (m : MessageOrigin) (now : Int) (k : String) :
    (m.Offset ≤ 0 → runStep reg m now = reg) ∧
    (k ≠ m.sourcePath → findEntry (runStep reg m now) k = findEntry reg k) ∧
    (m.Offset > 0 →
      (findEntry (runStep reg m now) m.sourcePath).map (fun e => e.Offset) =
        some m.Offset) := by
  refine ⟨?_, ?_, ?_⟩
  · intro h
    have hng : ¬ m.Offset > 0 := not_lt.mpr h
    simp [runStep, hng]
  · intro hk
    by_cases h : m.Offset > 0
    · simp [runStep, h, findEntry_updateRegistry_ne reg m.sourcePath k m.Offset now hk]
    · simp [runStep, h]
  · intro h
    simp [runStep, h, findEntry_updateRegistry_self]

/-- Witness for C10: a message at offset -3 leaves a one-entry registry
untouched, and a message at offset 8 for path p leaves the lookup of the
unrelated key q unchanged. -/
theorem runStep_C10_witness :
    runStep [("p", RegistryEntry.mk "p" 1 5)] { sourcePath := "p", Offset := -3 } 9 =
        [("p", RegistryEntry.mk "p" 1 5)] ∧
    findEntry (runStep [("p", RegistryEntry.mk "p" 1 5)]
        { sourcePath := "p", Offset := 8 } 9) "q" =
      findEntry [("p", RegistryEntry.mk "p" 1 5)] "q" := by
  constructor
  · exact (runStep_C10 [("p", RegistryEntry.mk "p" 1 5)]
      { sourcePath := "p", Offset := -3 } 9 "q").1 (by decide)
  · exact (runStep_C10 [("p", RegistryEntry.mk "p" 1 5)]
      { sourcePath := "p", Offset := 8 } 9 "q").2.1 (by decide)
